import Mathlib

/-!
Verification of the designer-plugin client's argument binder, session
manager and method dispatcher, as described by the repository's
specification.  The concrete implementation modules
(`designer_plugin/d3sdk/client.py`, `designer_plugin/d3sdk/ast_utils.py`,
`designer_plugin/models.py`) are not present in the source tree — only
their tests (`tests/test_client.py`) are — so the definitions below are
modelled from the specification's data model (§3) and component design
(§4.2–4.4), and cross-checked against the behaviours the tests demand.
-/

namespace DesignerPlugin

/-- Modelled from the spec (§3, `ParameterKind`): the kind of a declared
parameter.  The concrete binder module `d3sdk/ast_utils.py` is missing from
the source tree. -/
inductive ParameterKind where
  | PositionalOnly
  | PositionalOrKeyword
  | KeywordOnly
deriving DecidableEq, Repr

/-- Modelled from the spec (§9 design notes): argument values are a closed
sum type; the binder is value-shape-agnostic. -/
inductive Value where
  | int : Int → Value
  | str : String → Value
  | none : Value
deriving DecidableEq, Repr

/-- Modelled from the spec (§3, `ParameterDescriptor`): a declared
parameter with a name, a kind and an optional default. -/
structure Parameter where
  name : String
  kind : ParameterKind
  default : Option Value
deriving DecidableEq, Repr

/-- Modelled from the spec (§3, `SignatureDescriptor`): the ordered
sequence of declared parameters, excluding any implicit receiver slot. -/
abbrev Signature := List Parameter

/-- Modelled from the spec (§3, `BoundArguments`): the binder's output. -/
structure BoundArguments where
  positional : List Value
  keyword : List (String × Value)
deriving DecidableEq, Repr

/-- Modelled from the spec (§7, `BindingError`): the specific failure
kinds of the argument binder. -/
inductive BindingError where
  | TooManyPositionalArguments
  | MultipleValuesForArgument : String → BindingError
  | MissingRequiredArgument : String → BindingError
  | UnexpectedKeywordArgument : String → BindingError
deriving DecidableEq, Repr

/-- Is the parameter keyword-only? -/
def isKeywordOnly (p : Parameter) : Bool :=
  p.kind == ParameterKind.KeywordOnly

/-- The declared `PositionalOnly` and `PositionalOrKeyword` parameters, in
declaration order (spec §4.2 step 1 counts these). -/
def nonKeywordOnlyParams (sig : Signature) : List Parameter :=
  sig.filter (fun p => ! isKeywordOnly p)

/-- Spec §4.2 step 2: supplied positional arguments are assigned, in
order, to the declared non-keyword-only parameters in declaration order. -/
def positionalPairs (sig : Signature) (pos : List Value) : List (String × Value) :=
  ((nonKeywordOnlyParams sig).zip pos).map (fun pv => (pv.1.name, pv.2))

/-- Names of the parameters assigned by positional assignment (step 2). -/
def assignedNames (sig : Signature) (pos : List Value) : List String :=
  (positionalPairs sig pos).map (fun nv => nv.1)

/-- Look up a name in an association list of name/value pairs. -/
def lookupName (assigned : List (String × Value)) (n : String) : Option Value :=
  (assigned.find? (fun nv => nv.1 == n)).map (fun nv => nv.2)

/-- Spec §4.2 step 4: a keyword argument may target a declared
`PositionalOrKeyword` or `KeywordOnly` parameter; naming a `PositionalOnly`
parameter or an undeclared name is not allowed. -/
def declaredKeywordTarget (sig : Signature) (n : String) : Bool :=
  sig.any (fun p => p.name == n && !(p.kind == ParameterKind.PositionalOnly))

/-- The value a declared parameter resolves to (spec §4.2 step 5): the
supplied value if assigned, else the parameter's default, else nothing. -/
def resolve1 (assigned : List (String × Value)) (p : Parameter) : Option Value :=
  (lookupName assigned p.name).orElse (fun _ => p.default)

/-- Spec §4.2 step 5 (default fill): resolve every declared parameter in
declaration order; fail with `MissingRequiredArgument` at the first
parameter that is unassigned and has no default. -/
def resolveParams (assigned : List (String × Value)) :
    Signature → Except BindingError (List (Parameter × Value))
  | [] => Except.ok []
  | p :: rest =>
    match resolve1 assigned p with
    | some v => (resolveParams assigned rest).map (fun env => (p, v) :: env)
    | Option.none => Except.error (BindingError.MissingRequiredArgument p.name)

/-- Modelled from the spec (§4.2 steps 1–5): resolve a call's arguments
against a signature into a full environment (one value per declared
parameter), or fail with a specific `BindingError`.  Steps in order:
arity check, positional assignment, keyword collision check, keyword
resolution, default fill. -/
def bindResolve (sig : Signature) (pos : List Value) (kw : List (String × Value)) :
    Except BindingError (List (Parameter × Value)) :=
  if (nonKeywordOnlyParams sig).length < pos.length then
    Except.error BindingError.TooManyPositionalArguments
  else
    match kw.find? (fun nv => (assignedNames sig pos).contains nv.1) with
    | some nv => Except.error (BindingError.MultipleValuesForArgument nv.1)
    | Option.none =>
      match kw.find? (fun nv => ! declaredKeywordTarget sig nv.1) with
      | some nv => Except.error (BindingError.UnexpectedKeywordArgument nv.1)
      | Option.none => resolveParams (positionalPairs sig pos ++ kw) sig

/-- Spec §4.2 step 6 (output shaping): non-keyword-only resolved values
become the positional sequence in declaration order; keyword-only resolved
values become the keyword mapping. -/
def shapeOutput (env : List (Parameter × Value)) : BoundArguments :=
  { positional := (env.filter (fun pv => ! isKeywordOnly pv.1)).map (fun pv => pv.2),
    keyword := (env.filter (fun pv => isKeywordOnly pv.1)).map (fun pv => (pv.1.name, pv.2)) }

/-- Modelled from the spec (§4.2, `bind(signature, call_args)`): the
Argument Binder.  The concrete module `d3sdk/ast_utils.py` is missing from
the source tree. -/
def bind (sig : Signature) (pos : List Value) (kw : List (String × Value)) :
    Except BindingError BoundArguments :=
  (bindResolve sig pos kw).map shapeOutput

/-- Modelled from the spec (§3 `SignatureDescriptor` "excludes any
implicit leading self/receiver slot") and the tests of
`d3sdk/ast_utils.validate_and_extract_args`, whose module is missing from
the source tree: when the callable is a method, the first declared
parameter and the first actual argument (the receiver) are stripped before
binding. -/
def validate_and_extract_args (sig : Signature) (is_method : Bool)
    (args : List Value) (kw : List (String × Value)) : Except BindingError BoundArguments :=
  let sig2 := if is_method then sig.drop 1 else sig
  let args2 := if is_method then args.drop 1 else args
  bind sig2 args2 kw

/-- Modelled from the spec (§3, `PluginResponse.status`): a structured
status with code, message, details; `code == 0` denotes success. -/
structure PluginStatus where
  code : Int
  message : String
  details : List String
deriving DecidableEq, Repr

/-- Modelled from the spec (§3, `PluginResponse`): the structured reply
of the RPC Gateway.  `designer_plugin/models.py` is missing from the
source tree. -/
structure PluginResponse where
  status : PluginStatus
  returnValue : Option Value
deriving DecidableEq, Repr

/-- Modelled from the spec (§6): the registration payload carries at
least the resolved module name. -/
structure RegistrationPayload where
  moduleName : String
deriving DecidableEq, Repr

/-- Modelled from the spec (§3, `Session`) and the tests of
`d3sdk/client.D3PluginClient`, whose module is missing from the source
tree: the mutable per-client session state — the endpoint coordinates
(`_hostname`, `_port`), the statically configured default module name and
the session-scoped override (`_override_module_name`). -/
structure ClientState where
  hostname : Option String
  port : Option Nat
  module_name : String
  override_module_name : Option String
deriving DecidableEq, Repr

/-- Modelled from the tests (`plugin._hostname = ...; plugin._port = ...`
suffices to pass the session check): a session is active exactly when the
endpoint is set.  Spec §4.3 `is_active()`. -/
def in_session (s : ClientState) : Bool :=
  s.hostname.isSome && s.port.isSome

/-- Modelled from the spec (§4.3): effective module name resolution —
`module_override` if set, else the client's configured default. -/
def effective_module_name (s : ClientState) : String :=
  s.override_module_name.getD s.module_name

/-- The registration payload built from the current state, read fresh at
the point of use (spec §4.3 and §6). -/
def registration_payload (s : ClientState) : RegistrationPayload :=
  { moduleName := effective_module_name s }

/-- Modelled from the spec (§4.3 `enter`): set the endpoint and, when a
module name is given, the session-scoped override. -/
def session_enter (s : ClientState) (host : String) (port : Nat)
    (module_name : Option String) : ClientState :=
  { s with
    hostname := some host
    port := some port
    override_module_name :=
      match module_name with
      | some m => some m
      | Option.none => s.override_module_name }

/-- Modelled from the spec (§4.3 `exit`): deactivate the session and
clear the override unconditionally; the configured default is untouched. -/
def session_exit (s : ClientState) : ClientState :=
  { s with hostname := Option.none, port := Option.none, override_module_name := Option.none }

/-- Modelled from the spec (§4.3 / §6.2, the scoped `session(...)`
context manager of `d3sdk/client.py`, missing from the source tree).
`registerCollab` is the external registration collaborator
(`d3_api_register_module`) and `body` the session scope's body; either may
fail, modelled with `Except`.  The scope enters, optionally registers,
runs the body, and unconditionally exits — the first failure propagates
unchanged after cleanup. -/
def session {β : Type} (registerCollab : RegistrationPayload → Except String Unit)
    (body : ClientState → Except String β)
    (s : ClientState) (host : String) (port : Nat)
    (register_module : Bool) (module_name : Option String) :
    Except String β × ClientState :=
  let s1 := session_enter s host port module_name
  let regResult : Except String Unit :=
    if register_module then registerCollab (registration_payload s1) else Except.ok ()
  match regResult with
  | Except.error e => (Except.error e, session_exit s1)
  | Except.ok _ =>
    match body s1 with
    | Except.error e => (Except.error e, session_exit s1)
    | Except.ok b => (Except.ok b, session_exit s1)

/-- Modelled from the spec (§7): the error taxonomy seen by a caller of a
wrapped operation. -/
inductive CallError where
  | NotInSession
  | Binding : BindingError → CallError
  | RemoteOperationFailed : Int → String → List String → CallError
  | TransportFault
deriving DecidableEq, Repr

/-- Modelled from the spec (§6): the RPC Gateway collaborator
(`d3_api_plugin`): endpoint coordinates, operation name and bound
arguments in, a structured response or a transport fault out. -/
abbrev Gateway := String → Nat → String → BoundArguments → Except Unit PluginResponse

/-- Spec §4.4 step 5: unwrap a structured response — zero status code
yields the return value, a non-zero code fails with
`RemoteOperationFailed`. -/
def unwrapResponse (resp : PluginResponse) : Except CallError (Option Value) :=
  if resp.status.code = 0 then Except.ok resp.returnValue
  else Except.error
    (CallError.RemoteOperationFailed resp.status.code resp.status.message resp.status.details)

/-- Spec §4.4 step 4: forward the bound call to the gateway and unwrap,
propagating a transport fault unchanged. -/
def forwardResult (gateway : Gateway) (host : String) (port : Nat) (op : String)
    (ba : BoundArguments) : Except CallError (Option Value) :=
  match gateway host port op ba with
  | Except.error _ => Except.error CallError.TransportFault
  | Except.ok resp => unwrapResponse resp

/-- Modelled from the spec (§4.4, Method Dispatcher, wrapped operations
of `d3sdk/client.py`, missing from the source tree): check the session,
bind, forward, unwrap — in that order. -/
def dispatch (gateway : Gateway) (s : ClientState) (op : String) (sig : Signature)
    (pos : List Value) (kw : List (String × Value)) : Except CallError (Option Value) :=
  match s.hostname, s.port with
  | some h, some p =>
    match bind sig pos kw with
    | Except.error e => Except.error (CallError.Binding e)
    | Except.ok ba => forwardResult gateway h p op ba
  | _, _ => Except.error CallError.NotInSession

/-! ### Concrete signatures from the tests and the spec's scenarios -/

/-- The signature `(a, b)` of `simple_method` (tests; spec §8 scenarios),
receiver already stripped. -/
def sigSimple : Signature :=
  [⟨"a", ParameterKind.PositionalOrKeyword, Option.none⟩,
   ⟨"b", ParameterKind.PositionalOrKeyword, Option.none⟩]

/-- The signature `(x, y=10, z=20)` of `method_with_defaults`. -/
def sigDefaults : Signature :=
  [⟨"x", ParameterKind.PositionalOrKeyword, Option.none⟩,
   ⟨"y", ParameterKind.PositionalOrKeyword, some (Value.int 10)⟩,
   ⟨"z", ParameterKind.PositionalOrKeyword, some (Value.int 20)⟩]

/-- The signature `(*, name, value)` of `method_keyword_only`. -/
def sigKeywordOnly : Signature :=
  [⟨"name", ParameterKind.KeywordOnly, Option.none⟩,
   ⟨"value", ParameterKind.KeywordOnly, Option.none⟩]

/-- A signature `(a, /)` with a single positional-only parameter. -/
def sigPosOnly : Signature := [⟨"a", ParameterKind.PositionalOnly, Option.none⟩]

/-- The signature `(self, a, b=5, *, c)` of `method_mixed`, including the
receiver slot, as handed to `validate_and_extract_args`. -/
def sigMixedWithSelf : Signature :=
  [⟨"self", ParameterKind.PositionalOrKeyword, Option.none⟩,
   ⟨"a", ParameterKind.PositionalOrKeyword, Option.none⟩,
   ⟨"b", ParameterKind.PositionalOrKeyword, some (Value.int 5)⟩,
   ⟨"c", ParameterKind.KeywordOnly, Option.none⟩]

/-- A gateway doubling as the tests' mocked `d3_api_plugin`: every call
returns status code 0 with return value 42. -/
def gatewayMock : Gateway := fun _ _ _ _ =>
  Except.ok { status := { code := 0, message := "Success", details := [] },
              returnValue := some (Value.int 42) }

/-! ### Basic lemmas about the binder's steps -/

lemma bind_overflow (sig : Signature) (pos : List Value) (kw : List (String × Value))
    (h : (nonKeywordOnlyParams sig).length < pos.length) :
    bind sig pos kw = Except.error BindingError.TooManyPositionalArguments := by
  simp [bind, bindResolve, if_pos h, Except.map]

lemma bind_collision (sig : Signature) (pos : List Value) (kw : List (String × Value))
    (n : String) (v : Value)
    (hlen : ¬ (nonKeywordOnlyParams sig).length < pos.length)
    (hmem : (n, v) ∈ kw) (hass : n ∈ assignedNames sig pos) :
    ∃ m, m ∈ kw.map Prod.fst ∧ m ∈ assignedNames sig pos ∧
      bind sig pos kw = Except.error (BindingError.MultipleValuesForArgument m) := by
  have hsome : (kw.find? (fun nv => (assignedNames sig pos).contains nv.1)).isSome := by
    rw [List.find?_isSome]
    exact ⟨(n, v), hmem, by simpa using hass⟩
  obtain ⟨nv, hfind⟩ := Option.isSome_iff_exists.mp hsome
  have hpred := List.find?_some hfind
  refine ⟨nv.1, List.mem_map_of_mem Prod.fst (List.mem_of_find?_eq_some hfind),
    by simpa using hpred, ?_⟩
  unfold bind bindResolve
  rw [if_neg hlen, hfind]
  rfl

lemma bind_unexpected (sig : Signature) (pos : List Value) (kw : List (String × Value))
    (n : String) (v : Value)
    (hlen : ¬ (nonKeywordOnlyParams sig).length < pos.length)
    (hnocollide : ∀ nv ∈ kw, nv.1 ∉ assignedNames sig pos)
    (hmem : (n, v) ∈ kw) (hbad : declaredKeywordTarget sig n = false) :
    ∃ m, m ∈ kw.map Prod.fst ∧ declaredKeywordTarget sig m = false ∧
      bind sig pos kw = Except.error (BindingError.UnexpectedKeywordArgument m) := by
  have hnone : kw.find? (fun nv => (assignedNames sig pos).contains nv.1) = Option.none := by
    rw [List.find?_eq_none]
    intro nv hnv
    simpa using hnocollide nv hnv
  have hsome : (kw.find? (fun nv => ! declaredKeywordTarget sig nv.1)).isSome := by
    rw [List.find?_isSome]
    exact ⟨(n, v), hmem, by simp [hbad]⟩
  obtain ⟨nv, hfind⟩ := Option.isSome_iff_exists.mp hsome
  have hpred := List.find?_some hfind
  refine ⟨nv.1, List.mem_map_of_mem Prod.fst (List.mem_of_find?_eq_some hfind),
    by simpa using hpred, ?_⟩
  unfold bind bindResolve
  rw [if_neg hlen, hnone, hfind]
  rfl

lemma bindResolve_steps (sig : Signature) (pos : List Value) (kw : List (String × Value))
    (hlen : ¬ (nonKeywordOnlyParams sig).length < pos.length)
    (hnocollide : ∀ nv ∈ kw, nv.1 ∉ assignedNames sig pos)
    (htargets : ∀ nv ∈ kw, declaredKeywordTarget sig nv.1 = true) :
    bindResolve sig pos kw = resolveParams (positionalPairs sig pos ++ kw) sig := by
  have hnone1 : kw.find? (fun nv => (assignedNames sig pos).contains nv.1) = Option.none := by
    rw [List.find?_eq_none]
    intro nv hnv
    simpa using hnocollide nv hnv
  have hnone2 : kw.find? (fun nv => ! declaredKeywordTarget sig nv.1) = Option.none := by
    rw [List.find?_eq_none]
    intro nv hnv
    simp [htargets nv hnv]
  unfold bindResolve
  rw [if_neg hlen, hnone1, hnone2]

lemma resolveParams_ok (assigned : List (String × Value)) (sig : Signature)
    (h : ∀ p ∈ sig, (resolve1 assigned p).isSome) :
    resolveParams assigned sig =
      Except.ok (sig.map (fun p => (p, (resolve1 assigned p).getD Value.none))) := by
  induction sig with
  | nil => rfl
  | cons p rest ih =>
    obtain ⟨v, hv⟩ := Option.isSome_iff_exists.mp (h p (by simp))
    have htl := ih (fun q hq => h q (by simp [hq]))
    simp [resolveParams, hv, htl, Except.map]

lemma resolveParams_ok_inv (assigned : List (String × Value)) (sig : Signature)
    (env : List (Parameter × Value)) (h : resolveParams assigned sig = Except.ok env) :
    (∀ p ∈ sig, (resolve1 assigned p).isSome) ∧
      env = sig.map (fun p => (p, (resolve1 assigned p).getD Value.none)) := by
  induction sig generalizing env with
  | nil =>
    simp only [resolveParams] at h
    cases h
    simp
  | cons p rest ih =>
    simp only [resolveParams] at h
    cases hv : resolve1 assigned p with
    | none => rw [hv] at h; cases h
    | some v =>
      rw [hv] at h
      cases htl : resolveParams assigned rest with
      | error e => rw [htl] at h; simp [Except.map] at h
      | ok env' =>
        rw [htl] at h
        simp only [Except.map] at h
        cases h
        obtain ⟨h1, h2⟩ := ih env' htl
        constructor
        · intro q hq
          rcases List.mem_cons.mp hq with hq | hq
          · subst hq; simp [hv]
          · exact h1 q hq
        · simp [hv, h2]

lemma resolveParams_missing (assigned : List (String × Value)) (sig : Signature)
    (p : Parameter) (hp : p ∈ sig) (hnone : resolve1 assigned p = Option.none) :
    ∃ m, (∃ q ∈ sig, q.name = m ∧ resolve1 assigned q = Option.none) ∧
      resolveParams assigned sig = Except.error (BindingError.MissingRequiredArgument m) := by
  induction sig with
  | nil => cases hp
  | cons q rest ih =>
    cases hq : resolve1 assigned q with
    | none =>
      exact ⟨q.name, ⟨q, by simp, rfl, hq⟩, by simp [resolveParams, hq]⟩
    | some v =>
      have hp' : p ∈ rest := by
        rcases List.mem_cons.mp hp with hpq | hp'
        · subst hpq; rw [hq] at hnone; cases hnone
        · exact hp'
      obtain ⟨m, ⟨r, hr, hrm, hrn⟩, hres⟩ := ih hp'
      exact ⟨m, ⟨r, by simp [hr], hrm, hrn⟩, by simp [resolveParams, hq, hres, Except.map]⟩

lemma bindResolve_ok_inv (sig : Signature) (pos : List Value) (kw : List (String × Value))
    (env : List (Parameter × Value)) (h : bindResolve sig pos kw = Except.ok env) :
    ¬ (nonKeywordOnlyParams sig).length < pos.length ∧
    (∀ nv ∈ kw, nv.1 ∉ assignedNames sig pos) ∧
    (∀ nv ∈ kw, declaredKeywordTarget sig nv.1 = true) ∧
    resolveParams (positionalPairs sig pos ++ kw) sig = Except.ok env := by
  by_cases hlen : (nonKeywordOnlyParams sig).length < pos.length
  · rw [bindResolve, if_pos hlen] at h; cases h
  · rw [bindResolve, if_neg hlen] at h
    cases h1 : kw.find? (fun nv => (assignedNames sig pos).contains nv.1) with
    | some nv => rw [h1] at h; cases h
    | none =>
      rw [h1] at h
      cases h2 : kw.find? (fun nv => ! declaredKeywordTarget sig nv.1) with
      | some nv => rw [h2] at h; cases h
      | none =>
        rw [h2] at h
        refine ⟨hlen, ?_, ?_, h⟩
        · intro nv hnv
          have := List.find?_eq_none.mp h1 nv hnv
          simpa using this
        · intro nv hnv
          have := List.find?_eq_none.mp h2 nv hnv
          simpa using this

lemma bind_ok_inv (sig : Signature) (pos : List Value) (kw : List (String × Value))
    (ba : BoundArguments) (h : bind sig pos kw = Except.ok ba) :
    ∃ env, bindResolve sig pos kw = Except.ok env ∧ ba = shapeOutput env := by
  unfold bind at h
  cases hb : bindResolve sig pos kw with
  | error e => rw [hb] at h; simp [Except.map] at h
  | ok env =>
    rw [hb] at h
    simp only [Except.map] at h
    cases h
    exact ⟨env, rfl, rfl⟩

/-! ### Re-binding the binder's own output -/

lemma zip_map_self {α β : Type} (g : α → β) :
    ∀ l : List α, l.zip (l.map g) = l.map (fun a => (a, g a))
  | [] => rfl
  | a :: t => by simp [zip_map_self g t]

lemma lookupName_map_pairf (g : Parameter → Value) (params : List Parameter) :
    ∀ p : Parameter, (params.map Parameter.name).Nodup → p ∈ params →
      lookupName (params.map (fun q => (q.name, g q))) p.name = some (g p) := by
  induction params with
  | nil => intro p _ hp; cases hp
  | cons q rest ih =>
    intro p hnd hp
    rw [List.map_cons] at hnd
    obtain ⟨hqn, hnd'⟩ := List.nodup_cons.mp hnd
    by_cases hqp : q.name = p.name
    · have hpq : p = q := by
        rcases List.mem_cons.mp hp with h | h
        · exact h
        · exact absurd (hqp ▸ List.mem_map_of_mem Parameter.name h) hqn
      subst hpq
      unfold lookupName
      rw [List.map_cons, List.find?_cons_of_pos _ (by simp)]
      rfl
    · have hp' : p ∈ rest := by
        rcases List.mem_cons.mp hp with h | h
        · subst h; exact absurd rfl hqp
        · exact h
      have ihh := ih p hnd' hp'
      unfold lookupName at ihh ⊢
      rw [List.map_cons, List.find?_cons_of_neg _ (by simp [hqp])]
      exact ihh

lemma bind_roundtrip_core (sig : Signature) (pos : List Value) (kw : List (String × Value))
    (env : List (Parameter × Value))
    (hnames : (sig.map Parameter.name).Nodup)
    (hok : bindResolve sig pos kw = Except.ok env) :
    bindResolve sig (shapeOutput env).positional (shapeOutput env).keyword = Except.ok env := by
  obtain ⟨hlen, hnc, htg, hres⟩ := bindResolve_ok_inv sig pos kw env hok
  obtain ⟨hsome, henv⟩ := resolveParams_ok_inv _ _ _ hres
  set val : Parameter → Value :=
    fun p => (resolve1 (positionalPairs sig pos ++ kw) p).getD Value.none with hval
  have hinj : ∀ p ∈ sig, ∀ q ∈ sig, p.name = q.name → p = q :=
    fun p hp q hq => List.inj_on_of_nodup_map hnames hp hq
  have hpos : (shapeOutput env).positional = (nonKeywordOnlyParams sig).map val := by
    simp [shapeOutput, henv, List.filter_map, List.map_map, nonKeywordOnlyParams,
      Function.comp_def]
  have hkw : (shapeOutput env).keyword =
      (sig.filter isKeywordOnly).map (fun p => (p.name, val p)) := by
    simp [shapeOutput, henv, List.filter_map, List.map_map, Function.comp_def]
  have hlen' : ¬ (nonKeywordOnlyParams sig).length < (shapeOutput env).positional.length := by
    simp [hpos]
  have hpp : positionalPairs sig ((nonKeywordOnlyParams sig).map val) =
      (nonKeywordOnlyParams sig).map (fun p => (p.name, val p)) := by
    unfold positionalPairs
    rw [zip_map_self]
    simp [List.map_map, Function.comp]
  have han : assignedNames sig ((nonKeywordOnlyParams sig).map val) =
      (nonKeywordOnlyParams sig).map Parameter.name := by
    unfold assignedNames
    rw [hpp]
    simp [List.map_map, Function.comp]
  have hnc' : ∀ nv ∈ (shapeOutput env).keyword,
      nv.1 ∉ assignedNames sig (shapeOutput env).positional := by
    intro nv hnv
    rw [hkw] at hnv
    obtain ⟨p, hpKO, hnv'⟩ := List.mem_map.mp hnv
    rw [hpos, han]
    intro hmem'
    obtain ⟨q, hq, hqn⟩ := List.mem_map.mp hmem'
    obtain ⟨hpS, hpK⟩ := List.mem_filter.mp hpKO
    obtain ⟨hqS, hqK⟩ := List.mem_filter.mp hq
    have hq1 : nv.1 = p.name := by rw [← hnv']
    have : q = p := hinj q hqS p hpS (by rw [hqn, hq1])
    subst this
    simp [nonKeywordOnlyParams] at hqK
    exact absurd hpK (by simp [hqK])
  have htg' : ∀ nv ∈ (shapeOutput env).keyword, declaredKeywordTarget sig nv.1 = true := by
    intro nv hnv
    rw [hkw] at hnv
    obtain ⟨p, hpKO, hnv'⟩ := List.mem_map.mp hnv
    obtain ⟨hpS, hpK⟩ := List.mem_filter.mp hpKO
    have hkind : p.kind = ParameterKind.KeywordOnly := by
      simpa [isKeywordOnly] using hpK
    unfold declaredKeywordTarget
    rw [List.any_eq_true]
    refine ⟨p, hpS, ?_⟩
    have hq1 : nv.1 = p.name := by rw [← hnv']
    simp [hq1, hkind]
  have hperm : (nonKeywordOnlyParams sig ++ sig.filter isKeywordOnly).Perm sig := by
    have h := List.filter_append_perm (fun p => ! isKeywordOnly p) sig
    simpa [nonKeywordOnlyParams, Bool.not_not] using h
  have hnd : ((nonKeywordOnlyParams sig ++ sig.filter isKeywordOnly).map Parameter.name).Nodup :=
    ((hperm.map Parameter.name).nodup_iff).mpr hnames
  have hsupp : positionalPairs sig (shapeOutput env).positional ++ (shapeOutput env).keyword =
      ((nonKeywordOnlyParams sig ++ sig.filter isKeywordOnly).map (fun q => (q.name, val q))) := by
    rw [hpos, hpp, hkw, List.map_append]
  have hres1 : ∀ p ∈ sig,
      resolve1 (positionalPairs sig (shapeOutput env).positional ++ (shapeOutput env).keyword) p =
        some (val p) := by
    intro p hp
    have hlook := lookupName_map_pairf val (nonKeywordOnlyParams sig ++ sig.filter isKeywordOnly)
      p hnd (hperm.mem_iff.mpr hp)
    unfold resolve1
    rw [hsupp, hlook]
    rfl
  have hstep := bindResolve_steps sig (shapeOutput env).positional (shapeOutput env).keyword
    hlen' hnc' htg'
  rw [hstep, resolveParams_ok _ _ (fun p hp => by rw [hres1 p hp]; rfl)]
  congr 1
  refine (List.map_congr_left fun p hp => ?_).trans henv.symm
  rw [hres1 p hp]
  simp [hval]

/-! ### Lookup and provenance lemmas -/

lemma lookupName_mem (l : List (String × Value)) (n : String) (v : Value)
    (h : lookupName l n = some v) : ∃ nv ∈ l, nv.2 = v := by
  unfold lookupName at h
  cases hf : l.find? (fun nv => nv.1 == n) with
  | none => rw [hf] at h; cases h
  | some nv =>
    rw [hf] at h
    cases h
    exact ⟨nv, List.mem_of_find?_eq_some hf, rfl⟩

lemma lookupName_of_nodup (l : List (String × Value)) (n : String) (v : Value)
    (hnd : (l.map Prod.fst).Nodup) (hmem : (n, v) ∈ l) : lookupName l n = some v := by
  induction l with
  | nil => cases hmem
  | cons nv rest ih =>
    rw [List.map_cons] at hnd
    obtain ⟨h1, h2⟩ := List.nodup_cons.mp hnd
    rcases List.mem_cons.mp hmem with h | h
    · subst h
      unfold lookupName
      rw [List.find?_cons_of_pos _ (by simp)]
      rfl
    · have hne : ¬ nv.1 = n := by
        intro he
        exact h1 (he ▸ (List.mem_map_of_mem Prod.fst h : (n, v).1 ∈ rest.map Prod.fst))
      have ihh := ih h2 h
      unfold lookupName at ihh ⊢
      rw [List.find?_cons_of_neg _ (by simp [hne])]
      exact ihh

lemma lookupName_eq_none (l : List (String × Value)) (n : String)
    (h : n ∉ l.map Prod.fst) : lookupName l n = Option.none := by
  unfold lookupName
  rw [List.find?_eq_none.mpr]
  · rfl
  · intro nv hnv
    simp only [beq_iff_eq]
    intro he
    exact h (he ▸ List.mem_map_of_mem Prod.fst hnv)

lemma lookupName_append (l1 l2 : List (String × Value)) (n : String)
    (h : lookupName l1 n = Option.none) :
    lookupName (l1 ++ l2) n = lookupName l2 n := by
  unfold lookupName at h ⊢
  rw [List.find?_append]
  cases hf : l1.find? (fun nv => nv.1 == n) with
  | none => rfl
  | some nv => rw [hf] at h; cases h

lemma mem_positionalPairs_snd (sig : Signature) (pos : List Value) (nv : String × Value)
    (h : nv ∈ positionalPairs sig pos) : nv.2 ∈ pos := by
  unfold positionalPairs at h
  obtain ⟨⟨q, w⟩, hpv, hnv⟩ := List.mem_map.mp h
  rw [← hnv]
  exact (List.of_mem_zip hpv).2

lemma bind_value_provenance (sig : Signature) (pos : List Value) (kw : List (String × Value))
    (env : List (Parameter × Value)) (h : bindResolve sig pos kw = Except.ok env) :
    ∀ pv ∈ env, pv.1 ∈ sig ∧
      (pv.2 ∈ pos ∨ (∃ nv ∈ kw, nv.2 = pv.2) ∨ pv.1.default = some pv.2) := by
  obtain ⟨hlen, hnc, htg, hres⟩ := bindResolve_ok_inv sig pos kw env h
  obtain ⟨hsome, henv⟩ := resolveParams_ok_inv _ _ _ hres
  intro pv hpv
  rw [henv] at hpv
  obtain ⟨p, hp, hpv'⟩ := List.mem_map.mp hpv
  refine ⟨by rw [← hpv']; exact hp, ?_⟩
  cases hl : lookupName (positionalPairs sig pos ++ kw) p.name with
  | some v =>
    have hv : resolve1 (positionalPairs sig pos ++ kw) p = some v := by
      unfold resolve1
      rw [hl]
      rfl
    have hsnd : pv.2 = v := by rw [← hpv']; simp [hv]
    obtain ⟨nv, hnv, hv2⟩ := lookupName_mem _ _ _ hl
    rcases List.mem_append.mp hnv with hnv | hnv
    · left
      rw [hsnd, ← hv2]
      exact mem_positionalPairs_snd sig pos nv hnv
    · right; left
      exact ⟨nv, hnv, by rw [hv2, hsnd]⟩
  | none =>
    have hv : resolve1 (positionalPairs sig pos ++ kw) p = p.default := by
      unfold resolve1
      rw [hl]
      rfl
    have hs := hsome p hp
    rw [hv] at hs
    obtain ⟨d, hd⟩ := Option.isSome_iff_exists.mp hs
    right; right
    have hfst : pv.1 = p := by rw [← hpv']
    have hsnd : pv.2 = d := by rw [← hpv']; simp [hv, hd]
    rw [hfst, hsnd, hd]

/-! ### Dispatcher and session lemmas -/

lemma dispatch_inactive (gateway : Gateway) (s : ClientState) (op : String)
    (sig : Signature) (pos : List Value) (kw : List (String × Value))
    (h : in_session s = false) :
    dispatch gateway s op sig pos kw = Except.error CallError.NotInSession := by
  unfold in_session at h
  rcases hhost : s.hostname with _ | h1
  · unfold dispatch
    rw [hhost]
  · rcases hport : s.port with _ | p1
    · unfold dispatch
      rw [hhost, hport]
    · rw [hhost, hport] at h
      simp at h

lemma dispatch_forward (gateway : Gateway) (s : ClientState) (op : String)
    (sig : Signature) (pos : List Value) (kw : List (String × Value))
    (h1 : String) (p1 : Nat) (ba : BoundArguments)
    (hhost : s.hostname = some h1) (hport : s.port = some p1)
    (hok : bind sig pos kw = Except.ok ba) :
    dispatch gateway s op sig pos kw = forwardResult gateway h1 p1 op ba := by
  unfold dispatch
  rw [hhost, hport, hok]

lemma dispatch_active_ne (gateway : Gateway) (s : ClientState) (op : String)
    (sig : Signature) (pos : List Value) (kw : List (String × Value))
    (h1 : String) (p1 : Nat)
    (hhost : s.hostname = some h1) (hport : s.port = some p1) :
    dispatch gateway s op sig pos kw ≠ Except.error CallError.NotInSession := by
  unfold dispatch
  rw [hhost, hport]
  cases hb : bind sig pos kw with
  | error e => simp
  | ok ba =>
    show forwardResult gateway h1 p1 op ba ≠ _
    unfold forwardResult
    cases hg : gateway h1 p1 op ba with
    | error f => simp
    | ok resp =>
      by_cases hc : resp.status.code = 0 <;> simp [unwrapResponse, hc]

lemma session_snd {β : Type} (registerCollab : RegistrationPayload → Except String Unit)
    (body : ClientState → Except String β) (s : ClientState) (host : String) (port : Nat)
    (register_module : Bool) (module_name : Option String) :
    (session registerCollab body s host port register_module module_name).2 =
      session_exit (session_enter s host port module_name) := by
  simp only [session]
  rcases hreg : (if register_module then
      registerCollab (registration_payload (session_enter s host port module_name))
    else Except.ok ()) with e | u
  · rfl
  · rcases hbody : body (session_enter s host port module_name) with e | b
    · rfl
    · rfl

/-! ### The claims -/

/-- C1: for every signature (with distinct parameter names, spec §3) and
every call the binder accepts, re-applying the produced `BoundArguments`
(positional sequence plus keyword mapping) to the same signature binds
again to the very same `BoundArguments`, so applying any operation — a
function of the fully resolved parameter environment — to the bound
arguments yields a result identical to applying it to the original call
arguments. -/
theorem C1_bind_roundtrip (sig : Signature) (pos : List Value) (kw : List (String × Value))
    (ba : BoundArguments)
    (hnames : (sig.map Parameter.name).Nodup)
    (hok : bind sig pos kw = Except.ok ba) :
    bind sig ba.positional ba.keyword = Except.ok ba ∧
    ∀ operation : List (Parameter × Value) → Value,
      (bindResolve sig ba.positional ba.keyword).map operation =
        (bindResolve sig pos kw).map operation := by
  obtain ⟨env, hbr, hba⟩ := bind_ok_inv sig pos kw ba hok
  have hcore := bind_roundtrip_core sig pos kw env hnames hbr
  subst hba
  constructor
  · unfold bind
    rw [hcore]
    rfl
  · intro operation
    rw [hcore, hbr]

theorem C1_bind_roundtrip_witness :
    bind sigDefaults [Value.int 5, Value.int 10, Value.int 30] [] =
      Except.ok ⟨[Value.int 5, Value.int 10, Value.int 30], []⟩ ∧
    ∀ operation : List (Parameter × Value) → Value,
      (bindResolve sigDefaults [Value.int 5, Value.int 10, Value.int 30] []).map operation =
        (bindResolve sigDefaults [Value.int 5] [("z", Value.int 30)]).map operation :=
  C1_bind_roundtrip sigDefaults [Value.int 5] [("z", Value.int 30)]
    ⟨[Value.int 5, Value.int 10, Value.int 30], []⟩ (by decide) rfl

/-- C2: whenever the supplied positional arguments outnumber the declared
`PositionalOnly` plus `PositionalOrKeyword` parameters, the bind fails
with `TooManyPositionalArguments` no matter what the other arguments are;
in particular any positional argument given to a signature of only
keyword-only parameters fails this way, so a keyword-only parameter can
never be supplied positionally. -/
theorem C2_positional_overflow (sig : Signature) (pos : List Value)
    (kw : List (String × Value)) :
    ((nonKeywordOnlyParams sig).length < pos.length →
      bind sig pos kw = Except.error BindingError.TooManyPositionalArguments) ∧
    ((∀ p ∈ sig, p.kind = ParameterKind.KeywordOnly) → pos ≠ [] →
      bind sig pos kw = Except.error BindingError.TooManyPositionalArguments) := by
  constructor
  · exact bind_overflow sig pos kw
  · intro hko hpos
    apply bind_overflow
    have hnil : nonKeywordOnlyParams sig = [] := by
      unfold nonKeywordOnlyParams
      rw [List.filter_eq_nil_iff]
      intro p hp
      simp [isKeywordOnly, hko p hp]
    rw [hnil]
    simpa using List.length_pos.mpr hpos

theorem C2_positional_overflow_witness :
    bind sigKeywordOnly [Value.str "n", Value.int 1] [] =
      Except.error BindingError.TooManyPositionalArguments :=
  (C2_positional_overflow sigKeywordOnly [Value.str "n", Value.int 1] []).2
    (by decide) (by decide)

/-- C3: a keyword argument whose name duplicates a parameter already
assigned by positional assignment makes the bind fail with
`MultipleValuesForArgument` naming a colliding keyword (the parameter
itself when it is the only collision); the keyword value never silently
overwrites the positional one. -/
theorem C3_keyword_collision (sig : Signature) (pos : List Value) (kw : List (String × Value))
    (n : String) (v : Value)
    (hlen : pos.length ≤ (nonKeywordOnlyParams sig).length)
    (hmem : (n, v) ∈ kw)
    (hass : n ∈ assignedNames sig pos) :
    (∃ m, m ∈ kw.map Prod.fst ∧ m ∈ assignedNames sig pos ∧
       bind sig pos kw = Except.error (BindingError.MultipleValuesForArgument m)) ∧
    ((∀ nv ∈ kw, nv.1 ∈ assignedNames sig pos → nv.1 = n) →
       bind sig pos kw = Except.error (BindingError.MultipleValuesForArgument n)) := by
  have hlen' : ¬ (nonKeywordOnlyParams sig).length < pos.length := not_lt.mpr hlen
  constructor
  · exact bind_collision sig pos kw n v hlen' hmem hass
  · intro huniq
    obtain ⟨m, hm1, hm2, hm3⟩ := bind_collision sig pos kw n v hlen' hmem hass
    obtain ⟨nv, hnv, hnvm⟩ := List.mem_map.mp hm1
    rw [← hnvm] at hm2 hm3
    exact (huniq nv hnv hm2) ▸ hm3

theorem C3_keyword_collision_witness :
    bind sigSimple [Value.int 1] [("a", Value.int 2)] =
      Except.error (BindingError.MultipleValuesForArgument "a") :=
  (C3_keyword_collision sigSimple [Value.int 1] [("a", Value.int 2)] "a" (Value.int 2)
    (by decide) (by decide) (by decide)).2 (by decide)

/-- C4 counterexample: a keyword argument naming a `PositionalOnly`
parameter is NOT always an `UnexpectedKeywordArgument` — when that
parameter was already assigned positionally, the collision check (spec
§4.2 step 3) fires first and the bind fails with
`MultipleValuesForArgument` instead.  Signature `(a, /)`, call
`(1, a=2)`. -/
theorem C4_counterexample :
    bind sigPosOnly [Value.int 1] [("a", Value.int 2)] =
      Except.error (BindingError.MultipleValuesForArgument "a") ∧
    ¬ bind sigPosOnly [Value.int 1] [("a", Value.int 2)] =
        Except.error (BindingError.UnexpectedKeywordArgument "a") := by
  constructor
  · rfl
  · intro h
    rw [show bind sigPosOnly [Value.int 1] [("a", Value.int 2)] =
        Except.error (BindingError.MultipleValuesForArgument "a") from rfl] at h
    simp at h

/-- C4 (amended): for keyword arguments that do not collide with a
positional assignment, one whose name matches a declared
`PositionalOrKeyword` or `KeywordOnly` parameter is assigned to it, and
one whose name matches no declared parameter, or names a `PositionalOnly`
parameter (even though that parameter was not yet assigned), makes the
bind fail with `UnexpectedKeywordArgument`; a keyword argument that does
collide with a positional assignment instead fails with
`MultipleValuesForArgument` (spec §4.2 step 3 precedes step 4). -/
theorem C4_keyword_resolution (sig : Signature) (pos : List Value) (kw : List (String × Value))
    (n : String) (v : Value)
    (hlen : pos.length ≤ (nonKeywordOnlyParams sig).length)
    (hmem : (n, v) ∈ kw) :
    ((∀ nv ∈ kw, nv.1 ∉ assignedNames sig pos) → declaredKeywordTarget sig n = false →
      ∃ m, m ∈ kw.map Prod.fst ∧ declaredKeywordTarget sig m = false ∧
        bind sig pos kw = Except.error (BindingError.UnexpectedKeywordArgument m)) ∧
    (n ∈ assignedNames sig pos →
      ∃ m, m ∈ kw.map Prod.fst ∧ m ∈ assignedNames sig pos ∧
        bind sig pos kw = Except.error (BindingError.MultipleValuesForArgument m)) ∧
    ((kw.map Prod.fst).Nodup → n ∉ assignedNames sig pos →
      ∀ env p w, bindResolve sig pos kw = Except.ok env → (p, w) ∈ env → p.name = n →
        w = v) := by
  have hlen' : ¬ (nonKeywordOnlyParams sig).length < pos.length := not_lt.mpr hlen
  refine ⟨?_, ?_, ?_⟩
  · intro hnocollide hbad
    exact bind_unexpected sig pos kw n v hlen' hnocollide hmem hbad
  · intro hass
    exact bind_collision sig pos kw n v hlen' hmem hass
  · intro hnd hnass env p w hok hpw hpn
    obtain ⟨_, _, _, hres⟩ := bindResolve_ok_inv sig pos kw env hok
    obtain ⟨_, henv⟩ := resolveParams_ok_inv _ _ _ hres
    rw [henv] at hpw
    obtain ⟨q, hq, hqpw⟩ := List.mem_map.mp hpw
    have hq1 : q = p := congrArg Prod.fst hqpw
    subst hq1
    have hlook1 : lookupName (positionalPairs sig pos) q.name = Option.none := by
      apply lookupName_eq_none
      rw [hpn]
      exact hnass
    have hlook : lookupName (positionalPairs sig pos ++ kw) q.name = some v := by
      rw [lookupName_append _ _ _ hlook1, hpn]
      exact lookupName_of_nodup kw n v hnd hmem
    have hr : resolve1 (positionalPairs sig pos ++ kw) q = some v := by
      unfold resolve1
      rw [hlook]
      rfl
    have := congrArg Prod.snd hqpw
    simp only [hr] at this
    exact this.symm

theorem C4_keyword_resolution_witness :
    (∃ m, m ∈ ([("unexpected", Value.int 3)] : List (String × Value)).map Prod.fst ∧
       declaredKeywordTarget sigSimple m = false ∧
       bind sigSimple [Value.int 1, Value.int 2] [("unexpected", Value.int 3)] =
         Except.error (BindingError.UnexpectedKeywordArgument m)) :=
  (C4_keyword_resolution sigSimple [Value.int 1, Value.int 2] [("unexpected", Value.int 3)]
    "unexpected" (Value.int 3) (by decide) (by decide)).1 (by decide) (by decide)

/-- C5: after positional and keyword assignment (spec §4.2 steps 1–4
passing), every still-unassigned declared parameter receives its default
when it has one, and a still-unassigned parameter without a default makes
the bind fail with `MissingRequiredArgument` naming such a parameter;
concretely, for signature `(x, y=10, z=20)`, call `(5)` binds to
positional `(5, 10, 20)` and call `(5, z=30)` binds to positional
`(5, 10, 30)`, the keyword-supplied `z` landing in the positional
sequence. -/
theorem C5_default_fill (sig : Signature) (pos : List Value) (kw : List (String × Value))
    (hlen : pos.length ≤ (nonKeywordOnlyParams sig).length)
    (hnocollide : ∀ nv ∈ kw, nv.1 ∉ assignedNames sig pos)
    (htargets : ∀ nv ∈ kw, declaredKeywordTarget sig nv.1 = true) :
    (∀ env, bindResolve sig pos kw = Except.ok env →
      ∀ p w, (p, w) ∈ env →
        lookupName (positionalPairs sig pos ++ kw) p.name = Option.none →
        p.default = some w) ∧
    (∀ p ∈ sig, lookupName (positionalPairs sig pos ++ kw) p.name = Option.none →
      p.default = Option.none →
      ∃ m, (∃ q ∈ sig, q.name = m ∧
              lookupName (positionalPairs sig pos ++ kw) q.name = Option.none ∧
              q.default = Option.none) ∧
        bind sig pos kw = Except.error (BindingError.MissingRequiredArgument m)) ∧
    (bind sigDefaults [Value.int 5] [] =
        Except.ok ⟨[Value.int 5, Value.int 10, Value.int 20], []⟩ ∧
     bind sigDefaults [Value.int 5] [("z", Value.int 30)] =
        Except.ok ⟨[Value.int 5, Value.int 10, Value.int 30], []⟩) := by
  have hlen' : ¬ (nonKeywordOnlyParams sig).length < pos.length := not_lt.mpr hlen
  refine ⟨?_, ?_, rfl, rfl⟩
  · intro env hok p w hpw hlook
    obtain ⟨_, _, _, hres⟩ := bindResolve_ok_inv sig pos kw env hok
    obtain ⟨hsome, henv⟩ := resolveParams_ok_inv _ _ _ hres
    rw [henv] at hpw
    obtain ⟨q, hq, hqpw⟩ := List.mem_map.mp hpw
    have hq1 : q = p := congrArg Prod.fst hqpw
    subst hq1
    have hr : resolve1 (positionalPairs sig pos ++ kw) q = q.default := by
      unfold resolve1
      rw [hlook]
      rfl
    have hs := hsome q hq
    rw [hr] at hs
    obtain ⟨d, hd⟩ := Option.isSome_iff_exists.mp hs
    have hsnd := congrArg Prod.snd hqpw
    simp only [hr, hd] at hsnd
    rw [hd, ← hsnd]
    rfl
  · intro p hp hlook hdef
    have hr : resolve1 (positionalPairs sig pos ++ kw) p = Option.none := by
      unfold resolve1
      rw [hlook, hdef]
      rfl
    obtain ⟨m, ⟨q, hq, hqm, hqr⟩, hres⟩ :=
      resolveParams_missing (positionalPairs sig pos ++ kw) sig p hp hr
    have hqlook : lookupName (positionalPairs sig pos ++ kw) q.name = Option.none := by
      cases hl : lookupName (positionalPairs sig pos ++ kw) q.name with
      | none => rfl
      | some v =>
        unfold resolve1 at hqr
        rw [hl] at hqr
        cases hqr
    have hqdef : q.default = Option.none := by
      unfold resolve1 at hqr
      rw [hqlook] at hqr
      exact hqr
    refine ⟨m, ⟨q, hq, hqm, hqlook, hqdef⟩, ?_⟩
    unfold bind
    rw [bindResolve_steps sig pos kw hlen' hnocollide htargets, hres]
    rfl

theorem C5_default_fill_witness :
    (∃ m, (∃ q ∈ sigSimple, q.name = m ∧
            lookupName (positionalPairs sigSimple [Value.int 1] ++ []) q.name = Option.none ∧
            q.default = Option.none) ∧
      bind sigSimple [Value.int 1] [] =
        Except.error (BindingError.MissingRequiredArgument m)) ∧
    bind sigDefaults [Value.int 5] [] =
      Except.ok ⟨[Value.int 5, Value.int 10, Value.int 20], []⟩ := by
  have h := C5_default_fill sigSimple [Value.int 1] [] (by decide) (by simp) (by simp)
  exact ⟨h.2.1 ⟨"b", ParameterKind.PositionalOrKeyword, Option.none⟩ (by decide)
    (by decide) rfl, h.2.2.1⟩

/-- C6: calling a wrapped operation while `is_active()`/`in_session` is
false fails with `NotInSession` whatever the gateway, operation, signature
and arguments are — the result does not depend on them, so neither the
binder nor the gateway is ever consulted: the error precedes binding. -/
theorem C6_session_gating (gateway : Gateway) (s : ClientState) (op : String)
    (sig : Signature) (pos : List Value) (kw : List (String × Value))
    (h : in_session s = false) :
    dispatch gateway s op sig pos kw = Except.error CallError.NotInSession :=
  dispatch_inactive gateway s op sig pos kw h

theorem C6_session_gating_witness :
    dispatch gatewayMock ⟨Option.none, Option.none, "Plugin", Option.none⟩ "simple_method"
      sigSimple [Value.int 1, Value.int 2] [] = Except.error CallError.NotInSession :=
  C6_session_gating gatewayMock ⟨Option.none, Option.none, "Plugin", Option.none⟩
    "simple_method" sigSimple [Value.int 1, Value.int 2] [] rfl

/-- C7: on every exit of a session scope — normal completion or a failure
propagated from the registration collaborator or the body —
`module_override` is cleared, `is_active()` is false, and the original
failure still propagates to the caller after the cleanup: a failure raised
by the registration collaborator inside the scope propagates unchanged,
and so does a failure raised by the scope's body when registration (if
requested) succeeded. -/
theorem C7_session_cleanup {β : Type}
    (registerCollab : RegistrationPayload → Except String Unit)
    (body : ClientState → Except String β) (s : ClientState) (host : String) (port : Nat)
    (register_module : Bool) (module_name : Option String) :
    (session registerCollab body s host port register_module
        module_name).2.override_module_name = Option.none ∧
    in_session (session registerCollab body s host port register_module module_name).2
        = false ∧
    (∀ e, register_module = true →
      registerCollab (registration_payload (session_enter s host port module_name)) =
        Except.error e →
      (session registerCollab body s host port register_module module_name).1 =
        Except.error e) ∧
    (∀ e, (register_module = true →
        registerCollab (registration_payload (session_enter s host port module_name)) =
          Except.ok ()) →
      body (session_enter s host port module_name) = Except.error e →
      (session registerCollab body s host port register_module module_name).1 =
        Except.error e) := by
  refine ⟨?_, ?_, ?_, ?_⟩
  · rw [session_snd]
    rfl
  · rw [session_snd]
    rfl
  · intro e hreg herr
    simp only [session, hreg, if_true]
    rw [herr]
  · intro e hregok hbody
    cases hrm : register_module with
    | false => simp [session, hrm, hbody]
    | true => simp [session, hrm, hregok hrm, hbody]

theorem C7_session_cleanup_witness :
    (session (fun _ => Except.error "Test error") (fun _ => Except.ok Value.none)
        ⟨Option.none, Option.none, "Plugin", Option.none⟩ "localhost" 80 true
        (some "CustomModule")).2.override_module_name = Option.none ∧
    in_session (session (fun _ => Except.error "Test error") (fun _ => Except.ok Value.none)
        ⟨Option.none, Option.none, "Plugin", Option.none⟩ "localhost" 80 true
        (some "CustomModule")).2 = false ∧
    (session (fun _ => Except.error "Test error") (fun _ => Except.ok Value.none)
        ⟨Option.none, Option.none, "Plugin", Option.none⟩ "localhost" 80 true
        (some "CustomModule")).1 = Except.error "Test error" ∧
    (session (fun _ => Except.ok ()) (fun _ => Except.error "Body error")
        ⟨Option.none, Option.none, "Plugin", Option.none⟩ "localhost" 80 true
        (some "CustomModule")).1 = (Except.error "Body error" : Except String Value) := by
  have h := C7_session_cleanup (fun _ => Except.error "Test error")
    (fun _ => Except.ok Value.none) ⟨Option.none, Option.none, "Plugin", Option.none⟩
    "localhost" 80 true (some "CustomModule")
  have h2 := C7_session_cleanup (fun _ => Except.ok ())
    (fun _ => (Except.error "Body error" : Except String Value))
    ⟨Option.none, Option.none, "Plugin", Option.none⟩
    "localhost" 80 true (some "CustomModule")
  exact ⟨h.1, h.2.1, h.2.2.1 "Test error" rfl rfl,
    h2.2.2.2 "Body error" (fun _ => rfl) rfl⟩

/-- C8: for a client outside any session (no override pending), entering a
session with `register` true builds a registration payload whose module
name is `module_name` when given and the client's configured default
otherwise; the configured default is unchanged after the scope exits and
the override is cleared, so it cannot leak into a later session. -/
theorem C8_module_name_resolution {β : Type}
    (registerCollab : RegistrationPayload → Except String Unit)
    (body : ClientState → Except String β) (s : ClientState) (host : String) (port : Nat)
    (module_name : Option String)
    (hidle : s.override_module_name = Option.none) :
    (registration_payload (session_enter s host port module_name)).moduleName =
        module_name.getD s.module_name ∧
    (session registerCollab body s host port true module_name).2.module_name =
        s.module_name ∧
    (session registerCollab body s host port true module_name).2.override_module_name =
        Option.none := by
  refine ⟨?_, ?_, ?_⟩
  · cases module_name with
    | none => simp [registration_payload, session_enter, effective_module_name, hidle]
    | some m => simp [registration_payload, session_enter, effective_module_name]
  · rw [session_snd]
    rfl
  · rw [session_snd]
    rfl

theorem C8_module_name_resolution_witness :
    (registration_payload (session_enter
        ⟨Option.none, Option.none, "DefaultModule", Option.none⟩ "localhost" 80
        (some "CustomModule"))).moduleName = "CustomModule" ∧
    (session (fun _ => Except.ok ()) (fun _ => Except.ok Value.none)
        ⟨Option.none, Option.none, "DefaultModule", Option.none⟩ "localhost" 80 true
        (some "CustomModule")).2.module_name = "DefaultModule" ∧
    (session (fun _ => Except.ok ()) (fun _ => Except.ok Value.none)
        ⟨Option.none, Option.none, "DefaultModule", Option.none⟩ "localhost" 80 true
        (some "CustomModule")).2.override_module_name = Option.none :=
  C8_module_name_resolution (fun _ => Except.ok ()) (fun _ => Except.ok Value.none)
    ⟨Option.none, Option.none, "DefaultModule", Option.none⟩ "localhost" 80
    (some "CustomModule") rfl

/-- C9: a method bind strips the implicit leading receiver slot: binding
through `validate_and_extract_args` equals binding the caller-supplied
arguments (receiver removed) against the signature without its first
parameter, and whenever the receiver value occurs in neither the remaining
arguments, nor the keyword values, nor any declared default, it appears in
neither the positional sequence nor the keyword mapping of the produced
`BoundArguments`. -/
theorem C9_receiver_stripping (sig : Signature) (r : Value) (args : List Value)
    (kw : List (String × Value)) :
    validate_and_extract_args sig true (r :: args) kw = bind (sig.drop 1) args kw ∧
    (∀ ba, validate_and_extract_args sig true (r :: args) kw = Except.ok ba →
      r ∉ args → (∀ nv ∈ kw, nv.2 ≠ r) → (∀ p ∈ sig, p.default ≠ some r) →
      r ∉ ba.positional ∧ ∀ nv ∈ ba.keyword, nv.2 ≠ r) := by
  have h1 : validate_and_extract_args sig true (r :: args) kw = bind (sig.drop 1) args kw := by
    simp [validate_and_extract_args]
  refine ⟨h1, ?_⟩
  intro ba hok hargs hkw hdef
  rw [h1] at hok
  obtain ⟨env, hbr, hba⟩ := bind_ok_inv _ _ _ _ hok
  have hprov := bind_value_provenance _ _ _ _ hbr
  subst hba
  constructor
  · intro hmem
    obtain ⟨pv, hpv, hpv2⟩ := List.mem_map.mp hmem
    have hpv' : pv ∈ env := List.mem_of_mem_filter hpv
    obtain ⟨hpsig, hsrc⟩ := hprov pv hpv'
    rcases hsrc with hsrc | ⟨nv, hnv, hnv2⟩ | hsrc
    · rw [hpv2] at hsrc
      exact hargs hsrc
    · exact hkw nv hnv (by rw [hnv2, hpv2])
    · exact hdef pv.1 (List.mem_of_mem_drop hpsig) (hpv2 ▸ hsrc)
  · intro nv hnv hcontra
    obtain ⟨pv, hpv, hpv2⟩ := List.mem_map.mp hnv
    have hpv' : pv ∈ env := List.mem_of_mem_filter hpv
    obtain ⟨hpsig, hsrc⟩ := hprov pv hpv'
    have hsnd : pv.2 = r := by
      rw [← hcontra, ← hpv2]
    rcases hsrc with hsrc | ⟨mv, hmv, hmv2⟩ | hsrc
    · rw [hsnd] at hsrc
      exact hargs hsrc
    · exact hkw mv hmv (by rw [hmv2, hsnd])
    · exact hdef pv.1 (List.mem_of_mem_drop hpsig) (hsnd ▸ hsrc)

theorem C9_receiver_stripping_witness :
    validate_and_extract_args sigMixedWithSelf true [Value.none, Value.int 1]
        [("b", Value.int 10), ("c", Value.str "test")] =
      bind (sigMixedWithSelf.drop 1) [Value.int 1]
        [("b", Value.int 10), ("c", Value.str "test")] ∧
    Value.none ∉
      (BoundArguments.mk [Value.int 1, Value.int 10] [("c", Value.str "test")]).positional ∧
    ∀ nv ∈ (BoundArguments.mk [Value.int 1, Value.int 10]
        [("c", Value.str "test")]).keyword, nv.2 ≠ Value.none := by
  have h := C9_receiver_stripping sigMixedWithSelf Value.none [Value.int 1]
    [("b", Value.int 10), ("c", Value.str "test")]
  have h2 := h.2 ⟨[Value.int 1, Value.int 10], [("c", Value.str "test")]⟩ (by rw [h.1]; rfl)
    (by decide) (by decide) (by decide)
  exact ⟨h.1, h2.1, h2.2⟩

/-- C10 (implicit from the tests): the session-active check is exactly
"the endpoint is set" — a wrapped call fails with `NotInSession` precisely
when hostname or port is unset, so directly setting both endpoint fields
(as the tests do, without entering any session scope) suffices for the
call to pass the check and be forwarded to the RPC Gateway. -/
theorem C10_endpoint_gating (gateway : Gateway) (s : ClientState) (op : String)
    (sig : Signature) (pos : List Value) (kw : List (String × Value)) :
    (dispatch gateway s op sig pos kw = Except.error CallError.NotInSession ↔
      in_session s = false) ∧
    (∀ h1 p1 ba, s.hostname = some h1 → s.port = some p1 →
      bind sig pos kw = Except.ok ba →
      dispatch gateway s op sig pos kw = forwardResult gateway h1 p1 op ba) := by
  constructor
  · constructor
    · intro hdisp
      cases hin : in_session s with
      | false => rfl
      | true =>
        exfalso
        unfold in_session at hin
        rcases hh1 : s.hostname with _ | h1
        · rw [hh1] at hin
          simp at hin
        · rcases hp1 : s.port with _ | p1
          · rw [hp1] at hin
            simp at hin
          · exact dispatch_active_ne gateway s op sig pos kw h1 p1 hh1 hp1 hdisp
    · exact dispatch_inactive gateway s op sig pos kw
  · intro h1 p1 ba hh1 hp1 hok
    exact dispatch_forward gateway s op sig pos kw h1 p1 ba hh1 hp1 hok

theorem C10_endpoint_gating_witness :
    dispatch gatewayMock ⟨some "localhost", some 80, "Plugin", Option.none⟩ "simple_method"
        sigSimple [Value.int 5, Value.int 10] [] =
      forwardResult gatewayMock "localhost" 80 "simple_method"
        ⟨[Value.int 5, Value.int 10], []⟩ :=
  (C10_endpoint_gating gatewayMock ⟨some "localhost", some 80, "Plugin", Option.none⟩
    "simple_method" sigSimple [Value.int 5, Value.int 10] []).2 "localhost" 80
    ⟨[Value.int 5, Value.int 10], []⟩ rfl rfl rfl

end DesignerPlugin
